import Mathlib

set_option maxHeartbeats 1000000

/- Shallow embedding of scantron/types.py: bubbles, responses, rubrics,
   scantron rows, keys and the grader. Machine floats are modelled as
   exact rationals; Python runtime failures (ValueError, IndexError,
   AssertionError, ZeroDivisionError) are modelled with Except String. -/

/-- The five bubble choices A-E (class Bubble). -/
inductive Bubble where
  | A | B | C | D | E
deriving DecidableEq, Fintype

/-- The enum value of a bubble: its letter (Bubble.value). -/
def Bubble.val : Bubble → Char
  | .A => 'A'
  | .B => 'B'
  | .C => 'C'
  | .D => 'D'
  | .E => 'E'

/-- Enum lookup Bubble(value) applied to the original token: it succeeds
exactly on the single letters A-E. -/
def Bubble.ofLetter? : List Char → Option Bubble
  | ['A'] => some .A
  | ['B'] => some .B
  | ['C'] => some .C
  | ['D'] => some .D
  | ['E'] => some .E
  | _ => none

/-- Enum lookup Bubble(chr(ord(A) + n - 1)) used by the digit branch of
Bubble.parse: the computed character is a member of the enum exactly for
n = 1..5, giving A..E. -/
def Bubble.ofIndex? : Nat → Option Bubble
  | 1 => some .A
  | 2 => some .B
  | 3 => some .C
  | 4 => some .D
  | 5 => some .E
  | _ => none

/-- Python str.isdigit on a character sequence: non-empty and all digits. -/
def pyIsDigit (cs : List Char) : Bool :=
  !cs.isEmpty && cs.all Char.isDigit

/-- Decimal value of a digit string, as computed by int(value). -/
def decToNat (cs : List Char) : Nat :=
  cs.foldl (fun n c => 10 * n + (c.toNat - 48)) 0

/-- Bubble.parse(value): a digit string is read as a 1-based index into
A..E, a failed enum lookup there being reported as an invalid bubble
value; otherwise the token itself must be one of the letters A-E. -/
def Bubble.parse (cs : List Char) : Except String Bubble :=
  if pyIsDigit cs then
    match Bubble.ofIndex? (decToNat cs) with
    | some b => .ok b
    | none => .error ("Invalid bubble value: " ++ String.mk cs)
  else
    match Bubble.ofLetter? cs with
    | some b => .ok b
    | none => .error (String.mk cs ++ " is not a valid Bubble")

/-- A Response is represented by its list of bubbles (class Response). -/
abbrev Response := List Bubble

/-- The sort order used by the Response constructor: by letter value. -/
def bubbleLe (a b : Bubble) : Prop := a.val ≤ b.val

instance : DecidableRel bubbleLe :=
  fun a b => inferInstanceAs (Decidable (a.val ≤ b.val))

instance : IsTotal Bubble bubbleLe := ⟨by decide⟩

instance : IsTrans Bubble bubbleLe := ⟨by decide⟩

instance : IsAntisymm Bubble bubbleLe := ⟨by decide⟩

/-- The Response constructor: sorts the chosen bubbles by letter value. -/
def Response.ofChoices (choices : List Bubble) : Response :=
  List.insertionSort bubbleLe choices

/-- Characters kept by the re.sub in Response.parse, which removes every
character that is not a digit or a letter A-E. -/
def keepChar (c : Char) : Bool :=
  c.isDigit || ('A' ≤ c && c ≤ 'E')

/-- Sequencing of a Python list comprehension over fallible parses: the
first failure aborts the whole comprehension. -/
def exceptMapM {α β : Type} (f : α → Except String β) : List α → Except String (List β)
  | [] => .ok []
  | x :: xs =>
    match f x with
    | .error e => .error e
    | .ok y =>
      match exceptMapM f xs with
      | .error e => .error e
      | .ok ys => .ok (y :: ys)

/-- Response.parse: keep only digit and A-E characters, parse each one as
a bubble, deduplicate with set(), and store sorted. -/
def Response.parse (s : String) : Except String Response :=
  match exceptMapM (fun c => Bubble.parse [c]) (s.data.filter keepChar) with
  | .error e => .error e
  | .ok bs => .ok (Response.ofChoices bs.dedup)

/-- Splitting helper: cut a character list at every separator position
selected by the predicate, keeping empty pieces. -/
def splitAtAux (p : Char → Bool) : List Char → List Char → List (List Char)
  | [], acc => [acc.reverse]
  | c :: cs, acc =>
    if p c then acc.reverse :: splitAtAux p cs []
    else splitAtAux p cs (c :: acc)

/-- Python str.split() with no argument: split on whitespace runs,
dropping empty pieces. -/
def pySplitChars (cs : List Char) : List (List Char) :=
  (splitAtAux Char.isWhitespace cs []).filter (fun t => !t.isEmpty)

/-- Python str.split() with no argument, producing string tokens. -/
def pySplit (s : String) : List String :=
  (pySplitChars s.data).map String.mk

/-- Python str.split(sep) for a one-character separator: empty pieces are
kept. -/
def charSplit (sep : Char) (cs : List Char) : List (List Char) :=
  splitAtAux (fun c => c == sep) cs []

/-- Python str.strip(): remove leading and trailing whitespace. -/
def pyStripChars (cs : List Char) : List Char :=
  ((cs.dropWhile Char.isWhitespace).reverse.dropWhile Char.isWhitespace).reverse

/-- Python sep.join for the single-space separator. -/
def joinSpace : List (List Char) → List Char
  | [] => []
  | [t] => t
  | t :: ts => t ++ ' ' :: joinSpace ts

/-- A student record (class Student). -/
structure Student where
  name : String
  sid : String
deriving DecidableEq

/-- The Student constructor: collapse whitespace runs in the name and
strip the sid. -/
def Student.make (name sid : String) : Student :=
  ⟨String.mk (joinSpace (pySplitChars name.data)), String.mk (pyStripChars sid.data)⟩

/-- One submitted exam (class Scantron). -/
structure Scantron where
  student : Student
  form : Bubble
  responses : List Response
deriving DecidableEq

/-- Python row[i] for a non-negative index: IndexError when out of range. -/
def getIdx (row : List String) (i : Nat) : Except String String :=
  match row[i]? with
  | some x => .ok x
  | none => .error "list index out of range"

/-- A digit run to an optional Nat, shared by int and float parsing. -/
def decDigits? (cs : List Char) : Option Nat :=
  if !cs.isEmpty && cs.all Char.isDigit then some (decToNat cs) else none

/-- Python int(s), restricted to optionally signed decimal literals. -/
def pyInt? (s : String) : Option Int :=
  match pyStripChars s.data with
  | '-' :: rest => (decDigits? rest).map (fun n => -(n : Int))
  | '+' :: rest => (decDigits? rest).map (fun n => (n : Int))
  | cs => (decDigits? cs).map (fun n => (n : Int))

/-- Python slice row[start:stop] for a non-negative start and a possibly
negative stop. -/
def pySlice {α : Type} (row : List α) (start : Nat) (stop : Int) : List α :=
  (row.take (if stop < 0 then (stop + row.length).toNat else stop.toNat)).drop start

/-- Scantron.parse(row), with fields read in source evaluation order:
int(row[3]) first, then the Student fields row[1] and row[2], the form
row[0], and finally the slice row[4:4+n] of response tokens. -/
def Scantron.parse (row : List String) : Except String Scantron :=
  match getIdx row 3 with
  | .error e => .error e
  | .ok f3 =>
    match pyInt? f3 with
    | none => .error ("invalid literal for int with base 10: " ++ f3)
    | some n =>
      match getIdx row 1 with
      | .error e => .error e
      | .ok f1 =>
        match getIdx row 2 with
        | .error e => .error e
        | .ok f2 =>
          match getIdx row 0 with
          | .error e => .error e
          | .ok f0 =>
            match Bubble.parse f0.data with
            | .error e => .error e
            | .ok form =>
              match exceptMapM Response.parse (pySlice row 4 (4 + n)) with
              | .error e => .error e
              | .ok responses => .ok ⟨Student.make f1 f2, form, responses⟩

/-- One acceptable answer pattern (class RubricItem). -/
structure RubricItem where
  correct_response : Response
  partial_credit : Bool
deriving DecidableEq

/-- RubricItem.parse: an optional leading P marks partial credit, the
rest of the token is the correct response. -/
def RubricItem.parse (value : String) : Except String RubricItem :=
  match value.data with
  | 'P' :: rest =>
    match Response.parse (String.mk rest) with
    | .error e => .error e
    | .ok r => .ok ⟨r, true⟩
  | _ =>
    match Response.parse value with
    | .error e => .error e
    | .ok r => .ok ⟨r, false⟩

/-- The bubble set of a response (Response.bubble_set). -/
def toBubbleSet (r : Response) : Finset Bubble := r.toFinset

/-- RubricItem.grade: Canvas partial credit max(0, (correct - wrong) /
len(correct_bubbles)), or exact set match. The Python division is
unguarded, so an empty correct set raises ZeroDivisionError; that raise
is the error case here. -/
def RubricItem.grade (item : RubricItem) (response : Response) : Except String ℚ :=
  let correct := toBubbleSet item.correct_response
  let resp := toBubbleSet response
  if item.partial_credit then
    if correct.card = 0 then .error "float division by zero"
    else
      .ok (max 0 ((((correct ∩ resp).card : ℚ) - ((resp \ correct).card : ℚ)) / (correct.card : ℚ)))
  else
    .ok (if correct = resp then 1 else 0)

/-- One graded question (class Rubric). -/
structure Rubric where
  items : List RubricItem
  points : ℚ
  extra_credit : Bool
deriving DecidableEq

/-- Python float(s), restricted to optionally signed decimal literals
with an optional fractional part; exponent and special forms never occur
in rubric point tokens. -/
def pyFloat? (s : String) : Option ℚ :=
  let t := pyStripChars s.data
  let (sign, body) :=
    match t with
    | '-' :: rest => ((-1 : ℚ), rest)
    | '+' :: rest => ((1 : ℚ), rest)
    | _ => ((1 : ℚ), t)
  match charSplit '.' body with
  | [a] => (decDigits? a).map (fun n => sign * (n : ℚ))
  | [a, b] =>
    if !(a ++ b).isEmpty && (a ++ b).all Char.isDigit then
      some (sign * ((decToNat a : ℚ) + (decToNat b : ℚ) / (10 : ℚ) ^ b.length))
    else none
  | _ => none

/-- Rubric.parse: rubric ::= [points] item_sequence [E]. The token count
heuristic from the source decides whether the first token is the point
value: 3 tokens, or 2 tokens whose last is not E. -/
def Rubric.parse (value : String) : Except String Rubric :=
  match (pySplit value).getLast? with
  | none => .error "list index out of range"
  | some last =>
    match (if (pySplit value).length == 3 ||
          ((pySplit value).length == 2 && !(last == "E")) then
        match pyFloat? ((pySplit value).headD "") with
        | some q => Except.ok q
        | none =>
          Except.error ("could not convert string to float: " ++ (pySplit value).headD "")
      else Except.ok (1 : ℚ)) with
    | .error e => .error e
    | .ok points =>
      match exceptMapM RubricItem.parse
          ((charSplit '|' (if (pySplit value).length == 3 ||
              ((pySplit value).length == 2 && !(last == "E")) then
            ((pySplit value).getD 1 "").data
          else ((pySplit value).headD "").data)).map String.mk) with
      | .error e => .error e
      | .ok items => .ok ⟨items, points, last == "E"⟩

/-- Python max over a list of floats: ValueError on the empty list. -/
def pyMax (l : List ℚ) : Except String ℚ :=
  match l with
  | [] => .error "max arg is an empty sequence"
  | x :: xs => .ok (xs.foldl max x)

/-- Rubric.grade: the best item score scaled by the points; out_of is the
points unless the question is extra credit, in which case it is zero. -/
def Rubric.grade (rubric : Rubric) (response : Response) : Except String (ℚ × ℚ) :=
  match exceptMapM (fun item => item.grade response) rubric.items with
  | .error e => .error e
  | .ok scores =>
    match pyMax scores with
    | .error e => .error e
    | .ok best =>
      .ok (rubric.points * best, if rubric.extra_credit then 0 else rubric.points)

/-- An answer key for one form (class Key). -/
structure Key where
  form : Bubble
  questions : List Rubric
deriving DecidableEq

/-- Key.parse(row): int(row[3]) first, then the form row[0], then the
slice row[4:4+n] of rubric tokens. -/
def Key.parse (row : List String) : Except String Key :=
  match getIdx row 3 with
  | .error e => .error e
  | .ok f3 =>
    match pyInt? f3 with
    | none => .error ("invalid literal for int with base 10: " ++ f3)
    | some n =>
      match getIdx row 0 with
      | .error e => .error e
      | .ok f0 =>
        match Bubble.parse f0.data with
        | .error e => .error e
        | .ok form =>
          match exceptMapM Rubric.parse (pySlice row 4 (4 + n)) with
          | .error e => .error e
          | .ok questions => .ok ⟨form, questions⟩

/-- zip(*scorings) for a list of pairs: the two component lists when the
input is non-empty, and nothing at all when it is empty. -/
def zipUnpack (scorings : List (ℚ × ℚ)) : List (List ℚ) :=
  match scorings with
  | [] => []
  | _ :: _ => [scorings.map Prod.fst, scorings.map Prod.snd]

/-- Key.grade: assert a matching form and response count, grade each
question against the aligned response, and reduce componentwise; the
result is the variable-length tuple tuple(map(sum, zip(*scorings))). -/
def Key.grade (key : Key) (scantron : Scantron) : Except String (List ℚ) :=
  if scantron.form ≠ key.form then
    .error "Cannot grade a Scantron whose form differs from the Key form"
  else if scantron.responses.length ≠ key.questions.length then
    .error "Cannot grade a Scantron whose response count differs from the Key question count"
  else
    match exceptMapM (fun qr => Rubric.grade qr.1 qr.2) (key.questions.zip scantron.responses) with
    | .error e => .error e
    | .ok scorings => .ok ((zipUnpack scorings).map List.sum)

/-- add_key inside Grader.__init__: assert that the form is new, then
append. The list appended to is the class-level _keys default of class
Grader, i.e. one shared list threaded through every construction. -/
def Grader.addKey (keys : List Key) (key : Key) : Except String (List Key) :=
  if key.form ∈ keys.map Key.form then
    .error "Cannot have multiple keys for form"
  else .ok (keys ++ [key])

/-- Grader.__init__ acting on the shared class-level key list: add each
supplied key in order. The returned list is the new shared state, and
every Grader reads its keys property from that same shared list. -/
def Grader.init (shared : List Key) : List Key → Except String (List Key)
  | [] => .ok shared
  | k :: ks =>
    match Grader.addKey shared k with
    | .error e => .error e
    | .ok shared2 => Grader.init shared2 ks

/-- Whether a fallible computation succeeded. -/
def isOkE {β : Type} : Except String β → Bool
  | .ok _ => true
  | .error _ => false

/-- The successful value of a fallible computation, with a default. -/
def okD {β : Type} (d : β) : Except String β → β
  | .ok y => y
  | .error _ => d

theorem isOkE_false_iff {β : Type} (r : Except String β) :
    isOkE r = false ↔ ∃ e, r = .error e := by
  cases r <;> simp [isOkE]

theorem exceptMapM_ok_length {α β : Type} {f : α → Except String β} :
    ∀ {l : List α} {ys : List β}, exceptMapM f l = .ok ys → ys.length = l.length := by
  intro l
  induction l with
  | nil => intro ys h; simp only [exceptMapM] at h; cases h; rfl
  | cons x xs ih =>
    intro ys h
    simp only [exceptMapM] at h
    cases hx : f x with
    | error e => rw [hx] at h; exact Except.noConfusion h
    | ok y =>
      rw [hx] at h
      cases hxs : exceptMapM f xs with
      | error e => rw [hxs] at h; exact Except.noConfusion h
      | ok ys2 =>
        rw [hxs] at h
        cases h
        simp [ih hxs]

theorem exceptMapM_eq_ok_iff {α β : Type} (f : α → Except String β) (d : β) :
    ∀ (l : List α) (ys : List β),
      exceptMapM f l = .ok ys ↔
        ((∀ x ∈ l, isOkE (f x) = true) ∧ ys = l.map (fun x => okD d (f x))) := by
  intro l
  induction l with
  | nil =>
    intro ys
    simp only [exceptMapM, List.map_nil, List.not_mem_nil, false_implies, implies_true,
      true_and]
    constructor
    · intro h; cases h; rfl
    · intro h; rw [h]
  | cons x xs ih =>
    intro ys
    simp only [exceptMapM]
    cases hx : f x with
    | error e =>
      simp only [List.mem_cons]
      constructor
      · intro h; exact Except.noConfusion h
      · rintro ⟨hall, -⟩
        have := hall x (Or.inl rfl)
        rw [hx] at this
        simp [isOkE] at this
    | ok y =>
      cases hxs : exceptMapM f xs with
      | error e =>
        constructor
        · intro h; exact Except.noConfusion h
        · rintro ⟨hall, -⟩
          have h2 : exceptMapM f xs = .ok (xs.map (fun x => okD d (f x))) := by
            rw [ih]
            exact ⟨fun z hz => hall z (List.mem_cons_of_mem x hz), rfl⟩
          rw [hxs] at h2
          exact Except.noConfusion h2
      | ok ys2 =>
        have h2 := (ih ys2).mp hxs
        constructor
        · intro h
          cases h
          refine ⟨?_, ?_⟩
          · intro z hz
            rcases List.mem_cons.mp hz with hz | hz
            · subst hz; rw [hx]; rfl
            · exact h2.1 z hz
          · rw [List.map_cons]
            congr 1
            · rw [hx]; rfl
            · exact h2.2
        · rintro ⟨hall, hys⟩
          rw [hys, List.map_cons, hx, ← h2.2]
          rfl

theorem exceptMapM_error_iff {α β : Type} (f : α → Except String β) :
    ∀ l : List α,
      isOkE (exceptMapM f l) = false ↔ ∃ x ∈ l, isOkE (f x) = false := by
  intro l
  induction l with
  | nil => simp [exceptMapM, isOkE]
  | cons x xs ih =>
    simp only [exceptMapM, List.mem_cons]
    cases hx : f x with
    | error e =>
      constructor
      · intro _; exact ⟨x, Or.inl rfl, by rw [hx]; rfl⟩
      · intro _; rfl
    | ok y =>
      cases hxs : exceptMapM f xs with
      | error e2 =>
        rw [hxs] at ih
        constructor
        · intro _
          rcases ih.mp rfl with ⟨z, hz, hzz⟩
          exact ⟨z, Or.inr hz, hzz⟩
        · intro _; rfl
      | ok ys =>
        rw [hxs] at ih
        constructor
        · intro h; exact absurd h (by simp [isOkE])
        · rintro ⟨z, hz | hz, hzz⟩
          · rw [hz, hx] at hzz; exact absurd hzz (by simp [isOkE])
          · exact absurd (ih.mpr ⟨z, hz, hzz⟩) (by simp [isOkE])

theorem foldl_max_init_le : ∀ (xs : List ℚ) (x : ℚ), x ≤ xs.foldl max x := by
  intro xs
  induction xs with
  | nil => intro x; exact le_refl x
  | cons z zs ih =>
    intro x
    simp only [List.foldl_cons]
    exact le_trans (le_max_left x z) (ih (max x z))

theorem foldl_max_mem_le : ∀ (xs : List ℚ) (x y : ℚ), y ∈ xs → y ≤ xs.foldl max x := by
  intro xs
  induction xs with
  | nil => intro x y hy; exact absurd hy (List.not_mem_nil y)
  | cons z zs ih =>
    intro x y hy
    simp only [List.foldl_cons]
    rcases List.mem_cons.mp hy with hy | hy
    · rw [hy]
      exact le_trans (le_max_right x z) (foldl_max_init_le zs (max x z))
    · exact ih (max x z) y hy

theorem foldl_max_mem : ∀ (xs : List ℚ) (x : ℚ), xs.foldl max x = x ∨ xs.foldl max x ∈ xs := by
  intro xs
  induction xs with
  | nil => intro x; exact Or.inl rfl
  | cons z zs ih =>
    intro x
    simp only [List.foldl_cons]
    rcases ih (max x z) with h | h
    · rw [h]
      rcases max_choice x z with h2 | h2
      · exact Or.inl h2
      · exact Or.inr (by rw [h2]; exact List.mem_cons_self z zs)
    · exact Or.inr (List.mem_cons_of_mem z h)

theorem pyMax_spec {l : List ℚ} {m : ℚ} (h : pyMax l = .ok m) :
    m ∈ l ∧ ∀ x ∈ l, x ≤ m := by
  cases l with
  | nil => exact Except.noConfusion h
  | cons x xs =>
    simp only [pyMax] at h
    cases h
    constructor
    · rcases foldl_max_mem xs x with h | h
      · rw [h]; exact List.mem_cons_self x xs
      · exact List.mem_cons_of_mem x h
    · intro y hy
      rcases List.mem_cons.mp hy with hy | hy
      · rw [hy]; exact foldl_max_init_le xs x
      · exact foldl_max_mem_le xs x y hy

theorem graderInit_error_of_dup : ∀ (keys shared : List Key),
    ((∃ k ∈ keys, k.form ∈ shared.map Key.form) ∨ ¬(keys.map Key.form).Nodup) →
    isOkE (Grader.init shared keys) = false := by
  intro keys
  induction keys with
  | nil =>
    intro shared h
    rcases h with ⟨k, hk, -⟩ | h
    · exact absurd hk (List.not_mem_nil k)
    · exact absurd (by simp) h
  | cons k ks ih =>
    intro shared h
    simp only [Grader.init]
    by_cases hmem : k.form ∈ shared.map Key.form
    · simp [Grader.addKey, hmem, isOkE]
    · simp only [Grader.addKey, if_neg hmem]
      apply ih
      rcases h with ⟨k2, hk2, hform⟩ | hnd
      · rcases List.mem_cons.mp hk2 with h1 | h1
        · rw [h1] at hform; exact absurd hform hmem
        · refine Or.inl ⟨k2, h1, ?_⟩
          rw [List.map_append]
          exact List.mem_append_left _ hform
      · rw [List.map_cons, List.nodup_cons] at hnd
        rcases not_and_or.mp hnd with h1 | h1
        · rw [not_not] at h1
          rcases List.mem_map.mp h1 with ⟨k2, hk2, hk2f⟩
          refine Or.inl ⟨k2, hk2, ?_⟩
          rw [List.map_append, hk2f]
          exact List.mem_append_right _ (by simp)
        · exact Or.inr h1

theorem graderInit_nodup : ∀ (keys shared res : List Key),
    Grader.init shared keys = .ok res → (shared.map Key.form).Nodup →
    (res.map Key.form).Nodup := by
  intro keys
  induction keys with
  | nil =>
    intro shared res h hs
    simp only [Grader.init] at h
    cases h
    exact hs
  | cons k ks ih =>
    intro shared res h hs
    simp only [Grader.init] at h
    by_cases hmem : k.form ∈ shared.map Key.form
    · rw [Grader.addKey, if_pos hmem] at h
      exact Except.noConfusion h
    · rw [Grader.addKey, if_neg hmem] at h
      apply ih _ _ h
      rw [List.map_append]
      refine List.Nodup.append hs (List.nodup_singleton _) ?_
      intro a ha ha2
      simp only [List.map_cons, List.map_nil, List.mem_singleton] at ha2
      rw [ha2] at ha
      exact hmem ha

/-- C2: the claim says every Grader owns a private key list, fully
populated at its own construction and never changed afterwards, with no
sharing between Grader instances. In the code the _keys container is a
class-level default, so every construction appends to one shared list:
after a first Grader is built from the single key for form A, building a
second Grader from the disjoint key for form B extends that same shared
list, and the first Grader now reads two keys instead of one. -/
theorem c2_class_level_key_list_is_shared :
    Grader.init [] [Key.mk .A []] = .ok [Key.mk .A []] ∧
    Grader.init [Key.mk .A []] [Key.mk .B []] = .ok [Key.mk .A [], Key.mk .B []] ∧
    [Key.mk .A [], Key.mk .B []] ≠ [Key.mk .A []] :=
  ⟨rfl, rfl, by simp⟩

/-- C9: a RubricItem with partial credit and an empty correct response,
exactly what RubricItem.parse produces for the bare token P, makes the
unguarded partial-credit division fail with a division-by-zero error on
every response. -/
theorem c9_partial_credit_empty_correct_divzero :
    RubricItem.parse "P" = .ok ⟨[], true⟩ ∧
    ∀ (item : RubricItem) (response : Response),
      item.partial_credit = true →
      (toBubbleSet item.correct_response).card = 0 →
      item.grade response = .error "float division by zero" := by
  refine ⟨rfl, ?_⟩
  intro item response hp hc
  simp only [RubricItem.grade, hp, if_true, hc, if_pos]

theorem c9_witness :
    RubricItem.grade ⟨[], true⟩ [Bubble.A] = .error "float division by zero" :=
  c9_partial_credit_empty_correct_divzero.2 ⟨[], true⟩ [Bubble.A] rfl rfl

/-- C4: for a partial-credit RubricItem with a non-empty correct set,
grading any response yields exactly max(0, (correct - wrong) divided by
the size of the correct set), and this value always lies in [0, 1]. -/
theorem c4_partial_credit_formula_and_bounds
    (item : RubricItem) (response : Response)
    (hp : item.partial_credit = true)
    (hne : (toBubbleSet item.correct_response).Nonempty) :
    item.grade response =
      .ok (max 0 ((((toBubbleSet item.correct_response ∩ toBubbleSet response).card : ℚ) -
          ((toBubbleSet response \ toBubbleSet item.correct_response).card : ℚ)) /
          ((toBubbleSet item.correct_response).card : ℚ))) ∧
    0 ≤ max 0 ((((toBubbleSet item.correct_response ∩ toBubbleSet response).card : ℚ) -
          ((toBubbleSet response \ toBubbleSet item.correct_response).card : ℚ)) /
          ((toBubbleSet item.correct_response).card : ℚ)) ∧
    max 0 ((((toBubbleSet item.correct_response ∩ toBubbleSet response).card : ℚ) -
          ((toBubbleSet response \ toBubbleSet item.correct_response).card : ℚ)) /
          ((toBubbleSet item.correct_response).card : ℚ)) ≤ 1 := by
  have hcard : (toBubbleSet item.correct_response).card ≠ 0 :=
    (Finset.card_pos.mpr hne).ne'
  refine ⟨?_, le_max_left 0 _, ?_⟩
  · simp only [RubricItem.grade, hp, if_true, hcard, if_neg, if_false]
  · apply max_le (by norm_num)
    have hpos : (0 : ℚ) < ((toBubbleSet item.correct_response).card : ℚ) := by
      exact_mod_cast Nat.pos_of_ne_zero hcard
    rw [div_le_one hpos]
    have hsub : ((toBubbleSet item.correct_response ∩ toBubbleSet response).card : ℚ) ≤
        ((toBubbleSet item.correct_response).card : ℚ) := by
      exact_mod_cast Finset.card_le_card Finset.inter_subset_left
    have hw : (0 : ℚ) ≤
        ((toBubbleSet response \ toBubbleSet item.correct_response).card : ℚ) := by
      positivity
    linarith

theorem c4_witness :
    RubricItem.grade ⟨[Bubble.A, Bubble.B], true⟩ [Bubble.A] =
      .ok (max 0 ((((toBubbleSet [Bubble.A, Bubble.B] ∩ toBubbleSet [Bubble.A]).card : ℚ) -
          ((toBubbleSet [Bubble.A] \ toBubbleSet [Bubble.A, Bubble.B]).card : ℚ)) /
          ((toBubbleSet [Bubble.A, Bubble.B]).card : ℚ))) ∧
    0 ≤ max 0 ((((toBubbleSet [Bubble.A, Bubble.B] ∩ toBubbleSet [Bubble.A]).card : ℚ) -
          ((toBubbleSet [Bubble.A] \ toBubbleSet [Bubble.A, Bubble.B]).card : ℚ)) /
          ((toBubbleSet [Bubble.A, Bubble.B]).card : ℚ)) ∧
    max 0 ((((toBubbleSet [Bubble.A, Bubble.B] ∩ toBubbleSet [Bubble.A]).card : ℚ) -
          ((toBubbleSet [Bubble.A] \ toBubbleSet [Bubble.A, Bubble.B]).card : ℚ)) /
          ((toBubbleSet [Bubble.A, Bubble.B]).card : ℚ)) ≤ 1 :=
  c4_partial_credit_formula_and_bounds ⟨[Bubble.A, Bubble.B], true⟩ [Bubble.A] rfl
    ⟨Bubble.A, by decide⟩

/-- C5: for a Rubric whose items all grade successfully against a
response and whose item list is non-empty (so that the Python max is
defined), Rubric.grade returns points times the best item score as
points_earned, and as out_of the points when the question is not extra
credit and zero when it is; the best score is a true maximum of the item
scores. -/
theorem c5_rubric_grade_best_item_scaled :
    ∀ (rubric : Rubric) (response : Response) (scores : List ℚ) (best : ℚ),
      exceptMapM (fun item => item.grade response) rubric.items = .ok scores →
      pyMax scores = .ok best →
      Rubric.grade rubric response =
        .ok (rubric.points * best, if rubric.extra_credit then 0 else rubric.points) ∧
      best ∈ scores ∧ ∀ x ∈ scores, x ≤ best := by
  intro rubric response scores best h1 h2
  refine ⟨?_, (pyMax_spec h2).1, (pyMax_spec h2).2⟩
  simp only [Rubric.grade, h1, h2]

theorem c5_witness :
    Rubric.grade ⟨[⟨[Bubble.A], false⟩], 1, false⟩ [Bubble.A] =
      .ok ((1 : ℚ) * 1, 1) ∧ (1 : ℚ) ∈ [(1 : ℚ)] ∧ ∀ x ∈ [(1 : ℚ)], x ≤ 1 :=
  c5_rubric_grade_best_item_scaled ⟨[⟨[Bubble.A], false⟩], 1, false⟩ [Bubble.A]
    [1] 1 rfl rfl

/-- C6 counterexample: the claim says Key.grade returns the pair (0, 0)
for an empty question sequence; the code builds the result with
tuple(map(sum, zip(*scorings))), which for an empty key is the empty
tuple, not a pair of zeros. -/
theorem c6_counterexample :
    Key.grade ⟨.A, []⟩ ⟨⟨"X", "12345678"⟩, .A, []⟩ = .ok [] ∧
    ([] : List ℚ) ≠ [0, 0] :=
  ⟨rfl, by simp⟩

/-- C6 amended: under the form and length preconditions, when every
question grades successfully, Key.grade returns the componentwise sums of
points_earned and out_of as a two-component tuple for a non-empty
question sequence, and the empty tuple (not (0, 0)) when the question
sequence is empty. -/
theorem c6_amended_componentwise_sums
    (key : Key) (scantron : Scantron) (scorings : List (ℚ × ℚ))
    (hform : scantron.form = key.form)
    (hlen : scantron.responses.length = key.questions.length)
    (hmap : exceptMapM (fun qr => Rubric.grade qr.1 qr.2)
        (key.questions.zip scantron.responses) = .ok scorings) :
    Key.grade key scantron =
      .ok (if scorings = [] then []
        else [(scorings.map Prod.fst).sum, (scorings.map Prod.snd).sum]) := by
  unfold Key.grade
  rw [if_neg (by simp [hform]), if_neg (by simp [hlen]), hmap]
  cases scorings with
  | nil => rfl
  | cons p ps => simp [zipUnpack]

theorem c6_witness :
    Key.grade ⟨.A, [⟨[⟨[Bubble.A], false⟩], 1, false⟩]⟩
        ⟨⟨"X", "12345678"⟩, .A, [[Bubble.A]]⟩ =
      .ok (if ([((1 : ℚ) * 1, (1 : ℚ))] : List (ℚ × ℚ)) = [] then []
        else [([((1 : ℚ) * 1, (1 : ℚ))].map Prod.fst).sum,
          ([((1 : ℚ) * 1, (1 : ℚ))].map Prod.snd).sum]) :=
  c6_amended_componentwise_sums ⟨.A, [⟨[⟨[Bubble.A], false⟩], 1, false⟩]⟩
    ⟨⟨"X", "12345678"⟩, .A, [[Bubble.A]]⟩ [((1 : ℚ) * 1, (1 : ℚ))] rfl rfl rfl

/-- C8: constructing a Grader from a list that contains two keys of the
same form always fails the add_key assertion, whatever the prior shared
state; and a successful construction never yields a key list with two
keys of equal form, so no Grader holding duplicate forms is produced. -/
theorem c8_duplicate_forms_rejected :
    (∀ (shared keys : List Key) (k1 k2 : Key),
        [k1, k2].Sublist keys → k1.form = k2.form →
        isOkE (Grader.init shared keys) = false) ∧
    (∀ (shared keys res : List Key),
        Grader.init shared keys = .ok res → (shared.map Key.form).Nodup →
        (res.map Key.form).Nodup) := by
  constructor
  · intro shared keys k1 k2 hsub hform
    apply graderInit_error_of_dup
    right
    intro hnd
    have hsub2 : [k1.form, k2.form].Sublist (keys.map Key.form) := by
      simpa using hsub.map Key.form
    have hnd2 := hnd.sublist hsub2
    rw [List.nodup_cons] at hnd2
    exact hnd2.1 (by simp [hform])
  · intro shared keys res h hs
    exact graderInit_nodup keys shared res h hs

theorem c8_witness :
    isOkE (Grader.init [] [Key.mk .A [], Key.mk .A []]) = false :=
  c8_duplicate_forms_rejected.1 [] [Key.mk .A [], Key.mk .A []]
    (Key.mk .A []) (Key.mk .A []) (List.Sublist.refl _) rfl

theorem getIdx_ok_lt {row : List String} {i : Nat} {x : String}
    (h : getIdx row i = .ok x) : i < row.length := by
  by_contra hlt
  push_neg at hlt
  unfold getIdx at h
  rw [List.getElem?_eq_none hlt] at h
  exact Except.noConfusion h

theorem pySlice_length_over {α : Type} (row : List α) (n : Int)
    (h4 : 3 < row.length) (hover : (row.length : Int) - 4 < n) :
    (pySlice row 4 (4 + n)).length = row.length - 4 := by
  unfold pySlice
  rw [if_neg (by omega), List.length_drop, List.length_take]
  omega

theorem scantron_parse_ok_shape {row : List String} {s : Scantron}
    (h : Scantron.parse row = .ok s) :
    ∃ f3 n, getIdx row 3 = .ok f3 ∧ pyInt? f3 = some n ∧
      ∃ rs, exceptMapM Response.parse (pySlice row 4 (4 + n)) = .ok rs ∧
        s.responses = rs := by
  unfold Scantron.parse at h
  split at h
  · exact Except.noConfusion h
  · rename_i f3 h3
    split at h
    · exact Except.noConfusion h
    · rename_i n hn
      split at h
      · exact Except.noConfusion h
      · rename_i f1 h1
        split at h
        · exact Except.noConfusion h
        · rename_i f2 h2
          split at h
          · exact Except.noConfusion h
          · rename_i f0 h0
            split at h
            · exact Except.noConfusion h
            · rename_i form hb
              split at h
              · exact Except.noConfusion h
              · rename_i rs hm
                cases h
                exact ⟨f3, n, h3, hn, rs, hm, rfl⟩

theorem key_parse_ok_shape {row : List String} {k : Key}
    (h : Key.parse row = .ok k) :
    ∃ f3 n, getIdx row 3 = .ok f3 ∧ pyInt? f3 = some n ∧
      ∃ qs, exceptMapM Rubric.parse (pySlice row 4 (4 + n)) = .ok qs ∧
        k.questions = qs := by
  unfold Key.parse at h
  split at h
  · exact Except.noConfusion h
  · rename_i f3 h3
    split at h
    · exact Except.noConfusion h
    · rename_i n hn
      split at h
      · exact Except.noConfusion h
      · rename_i f0 h0
        split at h
        · exact Except.noConfusion h
        · rename_i form hb
          split at h
          · exact Except.noConfusion h
          · rename_i qs hm
            cases h
            exact ⟨f3, n, h3, hn, qs, hm, rfl⟩

/-- C1 counterexample: the claim says a declared question count larger
than the remaining row fields makes Scantron.parse and Key.parse fail
with an index-out-of-range error. The slice row[4:4+n] silently
truncates instead: both parses succeed on rows declaring 3 questions but
carrying a single token, and the caller receives a Scantron or Key with
only 1 question field. -/
theorem c1_counterexample :
    Scantron.parse ["A", "X", "12345678", "3", "12"] =
      .ok ⟨⟨"X", "12345678"⟩, .A, [[.A, .B]]⟩ ∧
    Key.parse ["A", "KEY", "", "3", "B"] =
      .ok ⟨.A, [⟨[⟨[.B], false⟩], 1, false⟩]⟩ ∧
    ([[Bubble.A, Bubble.B]] : List Response).length < 3 ∧
    ([⟨[⟨[.B], false⟩], 1, false⟩] : List Rubric).length < 3 :=
  ⟨rfl, rfl, by norm_num, by norm_num⟩

/-- C1 amended: when the declared question count n read from field 3
exceeds the number of fields after index 4, Scantron.parse and Key.parse
do not fail; whenever they succeed the slice has silently truncated, and
the caller receives a Scantron or Key carrying exactly the available
row.length - 4 question fields, strictly fewer than n. -/
theorem c1_amended_slice_truncates :
    (∀ (row : List String) (f3 : String) (n : Int) (s : Scantron),
        getIdx row 3 = .ok f3 → pyInt? f3 = some n →
        (row.length : Int) - 4 < n →
        Scantron.parse row = .ok s →
        s.responses.length = row.length - 4 ∧ ((s.responses.length : Int) < n)) ∧
    (∀ (row : List String) (f3 : String) (n : Int) (k : Key),
        getIdx row 3 = .ok f3 → pyInt? f3 = some n →
        (row.length : Int) - 4 < n →
        Key.parse row = .ok k →
        k.questions.length = row.length - 4 ∧ ((k.questions.length : Int) < n)) := by
  constructor
  · intro row f3 n s h3 hn hover h
    rcases scantron_parse_ok_shape h with ⟨f3x, nx, h3x, hnx, rs, hm, hresp⟩
    have hf : f3 = f3x := by injection h3.symm.trans h3x
    subst hf
    have hnn : n = nx := by injection hn.symm.trans hnx
    subst hnn
    have h4 : 3 < row.length := getIdx_ok_lt h3
    have hlen := exceptMapM_ok_length hm
    have hslice := pySlice_length_over row n h4 hover
    rw [hresp, hlen, hslice]
    constructor
    · rfl
    · omega
  · intro row f3 n k h3 hn hover h
    rcases key_parse_ok_shape h with ⟨f3x, nx, h3x, hnx, qs, hm, hresp⟩
    have hf : f3 = f3x := by injection h3.symm.trans h3x
    subst hf
    have hnn : n = nx := by injection hn.symm.trans hnx
    subst hnn
    have h4 : 3 < row.length := getIdx_ok_lt h3
    have hlen := exceptMapM_ok_length hm
    have hslice := pySlice_length_over row n h4 hover
    rw [hresp, hlen, hslice]
    constructor
    · rfl
    · omega

theorem c1_witness :
    (([[Bubble.A, Bubble.B]] : List Response).length =
        (["A", "X", "12345678", "3", "12"] : List String).length - 4 ∧
      ((([[Bubble.A, Bubble.B]] : List Response).length : Int) < 3)) ∧
    (([⟨[⟨[.B], false⟩], 1, false⟩] : List Rubric).length =
        (["A", "KEY", "", "3", "B"] : List String).length - 4 ∧
      ((([⟨[⟨[.B], false⟩], 1, false⟩] : List Rubric).length : Int) < 3)) :=
  ⟨c1_amended_slice_truncates.1 ["A", "X", "12345678", "3", "12"] "3" 3
      ⟨⟨"X", "12345678"⟩, .A, [[.A, .B]]⟩ rfl rfl (by decide) rfl,
    c1_amended_slice_truncates.2 ["A", "KEY", "", "3", "B"] "3" 3
      ⟨.A, [⟨[⟨[.B], false⟩], 1, false⟩]⟩ rfl rfl (by decide) rfl⟩

/-- C3 counterexample: the claim says an item-sequence token can never be
mistaken for the trailing extra-credit marker, so a rubric whose item
sequence is itself a valid single item parses with extra_credit false.
The single token E is itself a valid rubric item, yet Rubric.parse marks
the rubric as extra credit. -/
theorem c3_counterexample :
    Rubric.parse "E" = .ok ⟨[⟨[Bubble.E], false⟩], 1, true⟩ ∧
    isOkE (RubricItem.parse "E") = true ∧
    (⟨[⟨[Bubble.E], false⟩], (1 : ℚ), true⟩ : Rubric).extra_credit ≠ false :=
  ⟨rfl, rfl, by simp⟩

/-- C3 amended: Rubric.parse consumes the first token as the point value
exactly when there are 3 tokens, or 2 tokens whose last is not E, and
otherwise applies the default point value 1 and reads the items from the
first token; the extra-credit flag is set exactly when the final token is
literally E, so the single-token rubric E is itself taken as the
extra-credit marker. -/
theorem c3_amended_token_count_heuristic (value : String) (r : Rubric)
    (h : Rubric.parse value = .ok r) :
    ∃ last, (pySplit value).getLast? = some last ∧
      r.extra_credit = (last == "E") ∧
      (((pySplit value).length = 3 ∨ ((pySplit value).length = 2 ∧ last ≠ "E")) →
        pyFloat? ((pySplit value).headD "") = some r.points ∧
        exceptMapM RubricItem.parse
          ((charSplit '|' ((pySplit value).getD 1 "").data).map String.mk) = .ok r.items) ∧
      (¬((pySplit value).length = 3 ∨ ((pySplit value).length = 2 ∧ last ≠ "E")) →
        r.points = 1 ∧
        exceptMapM RubricItem.parse
          ((charSplit '|' ((pySplit value).headD "").data).map String.mk) = .ok r.items) := by
  unfold Rubric.parse at h
  split at h
  · exact Except.noConfusion h
  · rename_i last hlast
    refine ⟨last, hlast, ?_⟩
    have hiff : (((pySplit value).length == 3 ||
        ((pySplit value).length == 2 && !(last == "E"))) = true) ↔
        ((pySplit value).length = 3 ∨ ((pySplit value).length = 2 ∧ last ≠ "E")) := by
      simp
    by_cases hb : ((pySplit value).length == 3 ||
        ((pySplit value).length == 2 && !(last == "E"))) = true
    · simp only [if_pos hb] at h
      split at h
      · exact Except.noConfusion h
      · rename_i points hpts
        split at h
        · exact Except.noConfusion h
        · rename_i items hitems
          cases h
          have hq : pyFloat? ((pySplit value).headD "") = some points := by
            split at hpts
            · rename_i q hq2
              cases hpts
              exact hq2
            · exact Except.noConfusion hpts
          exact ⟨rfl, fun _ => ⟨hq, hitems⟩, fun hnp => absurd (hiff.mp hb) hnp⟩
    · simp only [if_neg hb] at h
      split at h
      · exact Except.noConfusion h
      · rename_i items hitems
        cases h
        exact ⟨rfl, fun hp => absurd (hiff.mpr hp) hb, fun _ => ⟨rfl, hitems⟩⟩

theorem c3_witness :
    ∃ last, (pySplit "AB").getLast? = some last ∧
      (⟨[⟨[Bubble.A, Bubble.B], false⟩], (1 : ℚ), false⟩ : Rubric).extra_credit =
        (last == "E") ∧
      (((pySplit "AB").length = 3 ∨ ((pySplit "AB").length = 2 ∧ last ≠ "E")) →
        pyFloat? ((pySplit "AB").headD "") =
          some (⟨[⟨[Bubble.A, Bubble.B], false⟩], (1 : ℚ), false⟩ : Rubric).points ∧
        exceptMapM RubricItem.parse
          ((charSplit '|' ((pySplit "AB").getD 1 "").data).map String.mk) =
          .ok (⟨[⟨[Bubble.A, Bubble.B], false⟩], (1 : ℚ), false⟩ : Rubric).items) ∧
      (¬((pySplit "AB").length = 3 ∨ ((pySplit "AB").length = 2 ∧ last ≠ "E")) →
        (⟨[⟨[Bubble.A, Bubble.B], false⟩], (1 : ℚ), false⟩ : Rubric).points = 1 ∧
        exceptMapM RubricItem.parse
          ((charSplit '|' ((pySplit "AB").headD "").data).map String.mk) =
          .ok (⟨[⟨[Bubble.A, Bubble.B], false⟩], (1 : ℚ), false⟩ : Rubric).items) :=
  c3_amended_token_count_heuristic "AB" ⟨[⟨[Bubble.A, Bubble.B], false⟩], 1, false⟩ rfl

/-- Total reading of one kept character as a bubble. -/
def bubChar (c : Char) : Bubble := okD .A (Bubble.parse [c])

theorem response_parse_ok_iff (s : String) (r : Response) :
    Response.parse s = .ok r ↔
      ((∀ c ∈ s.data.filter keepChar, isOkE (Bubble.parse [c]) = true) ∧
        r = Response.ofChoices ((s.data.filter keepChar).map bubChar).dedup) := by
  unfold Response.parse
  cases he : exceptMapM (fun c => Bubble.parse [c]) (s.data.filter keepChar) with
  | error e =>
    constructor
    · intro h; exact Except.noConfusion h
    · rintro ⟨hall, -⟩
      have h2 : exceptMapM (fun c => Bubble.parse [c]) (s.data.filter keepChar) =
          .ok ((s.data.filter keepChar).map bubChar) := by
        rw [exceptMapM_eq_ok_iff _ Bubble.A]
        exact ⟨hall, rfl⟩
      rw [he] at h2
      exact Except.noConfusion h2
  | ok bs =>
    have h2 := (exceptMapM_eq_ok_iff (fun c => Bubble.parse [c]) Bubble.A
      (s.data.filter keepChar) bs).mp he
    constructor
    · intro h
      cases h
      refine ⟨h2.1, ?_⟩
      rw [h2.2]
      rfl
    · rintro ⟨-, hr⟩
      rw [hr, h2.2]
      rfl

theorem ofChoices_dedup_eq_of_mem_iff {l1 l2 : List Bubble}
    (hm : ∀ b, b ∈ l1 ↔ b ∈ l2) :
    Response.ofChoices l1.dedup = Response.ofChoices l2.dedup := by
  unfold Response.ofChoices
  apply List.eq_of_perm_of_sorted ?_ (List.sorted_insertionSort bubbleLe l1.dedup)
    (List.sorted_insertionSort bubbleLe l2.dedup)
  rw [List.perm_iff_count]
  intro b
  rw [(List.perm_insertionSort bubbleLe l1.dedup).count_eq,
    (List.perm_insertionSort bubbleLe l2.dedup).count_eq,
    List.count_dedup, List.count_dedup]
  by_cases hb : b ∈ l1
  · rw [if_pos hb, if_pos ((hm b).mp hb)]
  · rw [if_neg hb, if_neg (fun h => hb ((hm b).mpr h))]

/-- C7: Response.parse depends only on which bubble characters occur in
its input, so it is invariant under reordering, duplication of a bubble
token, and punctuation variation; every parsed response is deduplicated
and sorted in canonical order, and the four spelled-out inputs all parse
to the full response A, B, C, D, E. -/
theorem c7_parse_canonical_invariance :
    (∀ (s t : String) (r : Response),
        (∀ c, c ∈ s.data.filter keepChar ↔ c ∈ t.data.filter keepChar) →
        Response.parse s = .ok r → Response.parse t = .ok r) ∧
    (∀ (s : String) (r : Response),
        Response.parse s = .ok r → List.Sorted bubbleLe r ∧ r.Nodup) ∧
    Response.parse "(5,1,4,2,3)" = .ok [.A, .B, .C, .D, .E] ∧
    Response.parse "(1,5,3,2,4)" = .ok [.A, .B, .C, .D, .E] ∧
    Response.parse "53214" = .ok [.A, .B, .C, .D, .E] ∧
    Response.parse "CABDE" = .ok [.A, .B, .C, .D, .E] := by
  refine ⟨?_, ?_, rfl, rfl, rfl, rfl⟩
  · intro s t r hmem h
    rw [response_parse_ok_iff] at h ⊢
    obtain ⟨hall, hr⟩ := h
    refine ⟨fun c hc => hall c ((hmem c).mpr hc), ?_⟩
    rw [hr]
    apply ofChoices_dedup_eq_of_mem_iff
    intro b
    simp only [List.mem_map]
    constructor
    · rintro ⟨c, hc, hbc⟩; exact ⟨c, (hmem c).mp hc, hbc⟩
    · rintro ⟨c, hc, hbc⟩; exact ⟨c, (hmem c).mpr hc, hbc⟩
  · intro s r h
    rw [response_parse_ok_iff] at h
    obtain ⟨-, hr⟩ := h
    rw [hr]
    exact ⟨List.sorted_insertionSort bubbleLe _,
      ((List.perm_insertionSort bubbleLe _).nodup_iff).mpr (List.nodup_dedup _)⟩

theorem c7_witness :
    Response.parse "(2,1,1)" = .ok [Bubble.A, Bubble.B] ∧
    List.Sorted bubbleLe ([Bubble.A, Bubble.B] : Response) ∧
    ([Bubble.A, Bubble.B] : Response).Nodup :=
  ⟨c7_parse_canonical_invariance.1 "12" "(2,1,1)" [Bubble.A, Bubble.B]
      (by
        intro c
        show c ∈ (['1', '2'] : List Char) ↔ c ∈ (['2', '1', '1'] : List Char)
        simp only [List.mem_cons, List.not_mem_nil, or_false]
        tauto)
      rfl,
    (c7_parse_canonical_invariance.2.1 "12" [Bubble.A, Bubble.B] rfl).1,
    (c7_parse_canonical_invariance.2.1 "12" [Bubble.A, Bubble.B] rfl).2⟩

theorem char_eq_of_toNat_eq (d : Char) {c : Char} (h : c.val.toNat = d.val.toNat) : c = d :=
  Char.ext (UInt32.ext h)

theorem digit_char_cases {c : Char} (h : c.isDigit = true) :
    c = '0' ∨ c = '1' ∨ c = '2' ∨ c = '3' ∨ c = '4' ∨
    c = '5' ∨ c = '6' ∨ c = '7' ∨ c = '8' ∨ c = '9' := by
  simp only [Char.isDigit, ge_iff_le, Bool.and_eq_true, decide_eq_true_eq] at h
  have h1 : 48 ≤ c.val.toNat := h.1
  have h3 : c.val.toNat ≤ 57 := h.2
  have h2 : c.val.toNat = 48 ∨ c.val.toNat = 49 ∨ c.val.toNat = 50 ∨ c.val.toNat = 51 ∨
      c.val.toNat = 52 ∨ c.val.toNat = 53 ∨ c.val.toNat = 54 ∨ c.val.toNat = 55 ∨
      c.val.toNat = 56 ∨ c.val.toNat = 57 := by omega
  rcases h2 with h|h|h|h|h|h|h|h|h|h
  · exact Or.inl (char_eq_of_toNat_eq '0' (by rw [h]; rfl))
  · exact Or.inr (Or.inl (char_eq_of_toNat_eq '1' (by rw [h]; rfl)))
  · exact Or.inr (Or.inr (Or.inl (char_eq_of_toNat_eq '2' (by rw [h]; rfl))))
  · exact Or.inr (Or.inr (Or.inr (Or.inl (char_eq_of_toNat_eq '3' (by rw [h]; rfl)))))
  · exact Or.inr (Or.inr (Or.inr (Or.inr (Or.inl (char_eq_of_toNat_eq '4' (by rw [h]; rfl))))))
  · exact Or.inr (Or.inr (Or.inr (Or.inr (Or.inr (Or.inl (char_eq_of_toNat_eq '5'
      (by rw [h]; rfl)))))))
  · exact Or.inr (Or.inr (Or.inr (Or.inr (Or.inr (Or.inr (Or.inl (char_eq_of_toNat_eq '6'
      (by rw [h]; rfl))))))))
  · exact Or.inr (Or.inr (Or.inr (Or.inr (Or.inr (Or.inr (Or.inr (Or.inl
      (char_eq_of_toNat_eq '7' (by rw [h]; rfl)))))))))
  · exact Or.inr (Or.inr (Or.inr (Or.inr (Or.inr (Or.inr (Or.inr (Or.inr (Or.inl
      (char_eq_of_toNat_eq '8' (by rw [h]; rfl))))))))))
  · exact Or.inr (Or.inr (Or.inr (Or.inr (Or.inr (Or.inr (Or.inr (Or.inr (Or.inr
      (char_eq_of_toNat_eq '9' (by rw [h]; rfl))))))))))

theorem keep_letter_cases {c : Char} (hk : keepChar c = true) (hd : c.isDigit = false) :
    c = 'A' ∨ c = 'B' ∨ c = 'C' ∨ c = 'D' ∨ c = 'E' := by
  simp only [keepChar, Bool.or_eq_true, Bool.and_eq_true, decide_eq_true_eq] at hk
  rcases hk with hk | hk
  · rw [hd] at hk; exact Bool.noConfusion hk
  · have h1 : 65 ≤ c.val.toNat := hk.1
    have h3 : c.val.toNat ≤ 69 := hk.2
    have h2 : c.val.toNat = 65 ∨ c.val.toNat = 66 ∨ c.val.toNat = 67 ∨
        c.val.toNat = 68 ∨ c.val.toNat = 69 := by omega
    rcases h2 with h|h|h|h|h
    · exact Or.inl (char_eq_of_toNat_eq 'A' (by rw [h]; rfl))
    · exact Or.inr (Or.inl (char_eq_of_toNat_eq 'B' (by rw [h]; rfl)))
    · exact Or.inr (Or.inr (Or.inl (char_eq_of_toNat_eq 'C' (by rw [h]; rfl))))
    · exact Or.inr (Or.inr (Or.inr (Or.inl (char_eq_of_toNat_eq 'D' (by rw [h]; rfl)))))
    · exact Or.inr (Or.inr (Or.inr (Or.inr (char_eq_of_toNat_eq 'E' (by rw [h]; rfl)))))

theorem bubble_char_error_iff {c : Char} (hk : keepChar c = true) :
    isOkE (Bubble.parse [c]) = false ↔
      (c.isDigit = true ∧ c ∉ (['1', '2', '3', '4', '5'] : List Char)) := by
  cases hd : c.isDigit with
  | true =>
    rcases digit_char_cases hd with h|h|h|h|h|h|h|h|h|h <;> subst h <;> decide
  | false =>
    rcases keep_letter_cases hk hd with h|h|h|h|h <;> subst h <;> decide

/-- C10: Response.parse fails exactly when the input contains a digit
character other than 1-5; every other character that is not a digit or an
uppercase letter A-E is silently discarded and never causes an error, so
inputs with no bubble characters at all, such as F or the empty string,
parse to the empty response. -/
theorem c10_parse_error_characterization :
    (∀ s : String,
        isOkE (Response.parse s) = false ↔
          ∃ c ∈ s.data, c.isDigit = true ∧ c ∉ (['1', '2', '3', '4', '5'] : List Char)) ∧
    Response.parse "F" = .ok [] ∧
    Response.parse "" = .ok [] := by
  refine ⟨?_, rfl, rfl⟩
  intro s
  have hstep : isOkE (Response.parse s) =
      isOkE (exceptMapM (fun c => Bubble.parse [c]) (s.data.filter keepChar)) := by
    unfold Response.parse
    cases he : exceptMapM (fun c => Bubble.parse [c]) (s.data.filter keepChar) <;> rfl
  rw [hstep, exceptMapM_error_iff]
  constructor
  · rintro ⟨c, hc, hcerr⟩
    have hcf := List.mem_filter.mp hc
    exact ⟨c, hcf.1, (bubble_char_error_iff hcf.2).mp hcerr⟩
  · rintro ⟨c, hc, hdig, hnot⟩
    have hk : keepChar c = true := by simp [keepChar, hdig]
    exact ⟨c, List.mem_filter.mpr ⟨hc, hk⟩, (bubble_char_error_iff hk).mpr ⟨hdig, hnot⟩⟩

theorem c10_witness :
    isOkE (Response.parse "6") = false ↔
      ∃ c ∈ ("6" : String).data, c.isDigit = true ∧
        c ∉ (['1', '2', '3', '4', '5'] : List Char) :=
  c10_parse_error_characterization.1 "6"
